import Mathlib

/-!
Verification of the cluster-leader election node (src/cluster-leader.js).

The store side models the four Redis/Valkey commands the node issues against
its single lock key (SET key value NX EX ttl, GET key, EXPIRE key ttl,
DEL key) over an explicit clock, so that TTL expiry is observable.  The
node side models, step by atomic store command, the input handler
(checkLeadership, refreshLeadership and the leader/follower routing), the
status-monitor tick, the close handler, and the lockTTL configuration line.
-/

namespace ClusterLeader

/-- A lease stored at the lock key: the holder identity (the hostname written
by the conditional set) and the absolute instant at which the store expires
the key. -/
structure Lease where
  holder : String
  expiresAt : Nat
deriving DecidableEq, Repr

/-- The state of the single lock key, together with the current time.  An
entry whose expiry instant has been reached behaves as absent. -/
structure Store where
  now : Nat
  entry : Option Lease
deriving DecidableEq, Repr

/-- The GET-visible content of the lock key: the holder, unless the key is
absent or its TTL has elapsed. -/
def Store.effective (s : Store) : Option String :=
  match s.entry with
  | some l => if s.now < l.expiresAt then some l.holder else none
  | none => none

/-- `redisClient.set(lockKey, hostname, {EX: lockTTL, NX: true})`: sets only
if the key is effectively absent and reports whether the set occurred; the
server rejects a non-positive EX argument (`none` = command error). -/
def setNxEx (s : Store) (v : String) (ttl : Int) : Option (Bool × Store) :=
  if ttl ≤ 0 then none
  else
    match s.effective with
    | some _ => some (false, s)
    | none => some (true, { s with entry := some ⟨v, s.now + ttl.toNat⟩ })

/-- `redisClient.get(lockKey)`: read-only lookup of the current holder. -/
def getOp (s : Store) : Option String := s.effective

/-- `redisClient.expire(lockKey, lockTTL)`: resets the remaining TTL of an
effectively present key (a non-positive ttl removes the key, as in Redis)
and reports success; returns false and leaves the store unchanged when the
key is effectively absent. -/
def expireOp (s : Store) (ttl : Int) : Bool × Store :=
  match s.entry with
  | some l =>
    if s.now < l.expiresAt then
      if ttl ≤ 0 then (true, { s with entry := none })
      else (true, { s with entry := some ⟨l.holder, s.now + ttl.toNat⟩ })
    else (false, s)
  | none => (false, s)

/-- `redisClient.del(lockKey)`: removes the key, no error if absent. -/
def delOp (s : Store) : Store := { s with entry := none }

/-- Store commands as issued over the wire, recorded in execution traces.
`opStop` records `clearInterval(statusInterval)` (not a store command) so
that the shutdown ordering is visible in the trace. -/
inductive Op
  | opSet (value : String) (ttl : Int)
  | opGet
  | opExpire (ttl : Int)
  | opDel
  | opQuit
  | opStop
deriving DecidableEq, Repr

/-- Outcome of one `node.on('input')` invocation: the message was dropped
(not connected), sent on output 1 (leader), sent on output 2 (follower,
carrying the GET result as leaderHost), or swallowed by the outer catch. -/
inductive HandlerResult
  | dropped
  | sentLeader
  | sentFollower (leaderHost : Option String)
  | errored
deriving DecidableEq, Repr

/-- Program counter of one in-flight `node.on('input')` invocation, one
state per atomic action of the source:
entry = the `if (!isConnected)` guard of the handler;
checkConn = the `if (!isConnected || !redisClient)` guard of checkLeadership;
checkSet = the SET NX EX command of checkLeadership;
refreshConn = the guard of refreshLeadership;
refreshGet = the GET of refreshLeadership;
refreshExpire = the EXPIRE of refreshLeadership;
followGet = the GET populating msg.leaderHost on the follower path. -/
inductive AgentPC
  | entry
  | checkConn
  | checkSet
  | refreshConn
  | refreshGet
  | refreshExpire
  | followGet
  | done (r : HandlerResult)
deriving DecidableEq, Repr

/-- One replica's in-flight invocation: its hostname and program counter. -/
structure Agent where
  id : String
  pc : AgentPC
deriving DecidableEq, Repr

/-- One atomic step of the input handler at program counter `pc`.  `ok`
models whether the client command reaches the store (`false` = connectivity
failure thrown by the client and caught exactly where the source catches
it); guard states ignore `ok` since they issue no command.  Returns the new
program counter, the new store, and the commands issued. -/
def inputHandlerStep (st : Store) (connected : Bool) (ttl : Int) (self : String)
    (pc : AgentPC) (ok : Bool) : AgentPC × Store × List Op :=
  match pc with
  | .entry => (if connected then .checkConn else .done .dropped, st, [])
  | .checkConn => (if connected then .checkSet else .refreshConn, st, [])
  | .checkSet =>
    if ok then
      match setNxEx st self ttl with
      | none => (.refreshConn, st, [.opSet self ttl])
      | some (true, st1) => (.done .sentLeader, st1, [.opSet self ttl])
      | some (false, st1) => (.refreshConn, st1, [.opSet self ttl])
    else (.refreshConn, st, [])
  | .refreshConn => (if connected then .refreshGet else .followGet, st, [])
  | .refreshGet =>
    if ok then
      match getOp st with
      | some h => (if h = self then .refreshExpire else .followGet, st, [.opGet])
      | none => (.followGet, st, [.opGet])
    else (.followGet, st, [])
  | .refreshExpire =>
    if ok then (.done .sentLeader, (expireOp st ttl).2, [.opExpire ttl])
    else (.followGet, st, [])
  | .followGet =>
    if ok then (.done (.sentFollower (getOp st)), st, [.opGet])
    else (.done .errored, st, [])
  | .done r => (.done r, st, [])

/-- Global state of a system of `n` replicas contending for one lock key:
the store, the (static) connectivity flag, the configured TTL, the replicas'
in-flight invocations, and the trace of commands issued so far. -/
structure GState (n : Nat) where
  store : Store
  connected : Bool
  ttl : Int
  agents : Fin n → Agent
  trace : List Op

/-- Scheduler events: replica `i` performs its next atomic step (with the
command reaching the store iff `ok`), or one unit of time passes. -/
inductive Event (n : Nat)
  | step (i : Fin n) (ok : Bool)
  | tick
deriving DecidableEq, Repr

/-- Execute one scheduler event. -/
def doEvent {n : Nat} (g : GState n) : Event n → GState n
  | .tick => { g with store := { g.store with now := g.store.now + 1 } }
  | .step i ok =>
    let a := g.agents i
    let r := inputHandlerStep g.store g.connected g.ttl a.id a.pc ok
    { g with
        store := r.2.1
        agents := Function.update g.agents i { a with pc := r.1 }
        trace := g.trace ++ r.2.2 }

/-- Execute a whole schedule. -/
def exec {n : Nat} (g : GState n) (es : List (Event n)) : GState n :=
  es.foldl doEvent g

/-- Initial global state: every replica is at the handler entry with an
empty trace. -/
def initState (n : Nat) (s : Store) (connected : Bool) (ttl : Int)
    (ids : Fin n → String) : GState n :=
  { store := s
    connected := connected
    ttl := ttl
    agents := fun i => ⟨ids i, .entry⟩
    trace := [] }

/-- A message as tagged by the handler before emission. -/
structure OutMsg where
  isLeader : Bool
  leaderHost : Option String
  followerHost : Option String
deriving DecidableEq, Repr

/-- What `node.send` emits on (output 1, output 2) for a handler outcome:
the leader path tags `{isLeader: true, leaderHost: hostname}`, the follower
path tags `{isLeader: false, leaderHost: <GET result>, followerHost:
hostname}`; dropped and errored invocations emit nothing. -/
def outputsOf (r : HandlerResult) (self : String) : Option OutMsg × Option OutMsg :=
  match r with
  | .sentLeader => (some ⟨true, some self, none⟩, none)
  | .sentFollower v => (none, some ⟨false, v, some self⟩)
  | .dropped => (none, none)
  | .errored => (none, none)

/-- Outputs of a replica's invocation (nothing before it finishes). -/
def agentOutputs (a : Agent) : Option OutMsg × Option OutMsg :=
  match a.pc with
  | .done r => outputsOf r a.id
  | _ => (none, none)

/-- `const lockTTL = parseInt(config.lockTTL) || 10`: `cfg` is the integer
the configured string parses to (`none` when parseInt yields NaN); NaN and 0
are falsy and fall back to the default 10; every other integer, negative
ones included, is kept unvalidated. -/
def lockTTL (cfg : Option Int) : Int :=
  match cfg with
  | none => 10
  | some v => if v = 0 then 10 else v

/-- The release performed in `node.on('close')`: read the current holder and
delete the key only when it equals this process's hostname. -/
def release (s : Store) (idy : String) : Store :=
  match getOp s with
  | some h => if h = idy then delOp s else s
  | none => s

/-- The node status shown after a monitor tick. -/
inductive NodeStatus
  | disconnected
  | leaderSt
  | followerSt (leader : String)
  | noLeader
  | errorSt
deriving DecidableEq, Repr

/-- One tick of the `setInterval` status monitor: when connected, GET the
holder; if it is this process, EXPIRE the key and show leader; if another,
show follower; if none, show no-leader; a thrown command is caught and shows
error.  `okGet`/`okExpire` model connectivity of the two commands. -/
def monitorTick (connected : Bool) (s : Store) (self : String) (ttl : Int)
    (okGet okExpire : Bool) : Store × NodeStatus × List Op :=
  if connected then
    if okGet then
      match getOp s with
      | some h =>
        if h = self then
          if okExpire then ((expireOp s ttl).2, .leaderSt, [.opGet, .opExpire ttl])
          else (s, .errorSt, [.opGet])
        else (s, .followerSt h, [.opGet])
      | none => (s, .noLeader, [.opGet])
    else (s, .errorSt, [])
  else (s, .disconnected, [])

/-- Result of the close handler: whether `done()` was invoked, the final
store, and the trace (`opStop` = clearInterval, issued first). -/
structure CloseOut where
  doneCalled : Bool
  store : Store
  trace : List Op
deriving DecidableEq, Repr

/-- `node.on('close')`: clear the monitor interval, then, when connected,
GET the holder, DEL the key if it is this process, and quit the client; a
thrown command is caught (logged) and `done()` is invoked in every case. -/
def onClose (connected : Bool) (s : Store) (self : String)
    (okGet okDel okQuit : Bool) : CloseOut :=
  if connected then
    if okGet then
      match getOp s with
      | some h =>
        if h = self then
          if okDel then
            if okQuit then ⟨true, delOp s, [.opStop, .opGet, .opDel, .opQuit]⟩
            else ⟨true, delOp s, [.opStop, .opGet, .opDel]⟩
          else ⟨true, s, [.opStop, .opGet]⟩
        else
          if okQuit then ⟨true, s, [.opStop, .opGet, .opQuit]⟩
          else ⟨true, s, [.opStop, .opGet]⟩
      | none =>
        if okQuit then ⟨true, s, [.opStop, .opGet, .opQuit]⟩
        else ⟨true, s, [.opStop, .opGet]⟩
    else ⟨true, s, [.opStop]⟩
  else ⟨true, s, [.opStop]⟩

/-! ### Unfolding lemmas for the scheduler -/

lemma doEvent_step_connected {n : Nat} (g : GState n) (i : Fin n) (ok : Bool) :
    (doEvent g (.step i ok)).connected = g.connected := rfl

lemma doEvent_step_ttl {n : Nat} (g : GState n) (i : Fin n) (ok : Bool) :
    (doEvent g (.step i ok)).ttl = g.ttl := rfl

lemma doEvent_step_store {n : Nat} (g : GState n) (i : Fin n) (ok : Bool) :
    (doEvent g (.step i ok)).store
      = (inputHandlerStep g.store g.connected g.ttl (g.agents i).id (g.agents i).pc ok).2.1 := rfl

lemma doEvent_step_agents {n : Nat} (g : GState n) (i : Fin n) (ok : Bool) :
    (doEvent g (.step i ok)).agents
      = Function.update g.agents i
          ⟨(g.agents i).id,
           (inputHandlerStep g.store g.connected g.ttl (g.agents i).id (g.agents i).pc ok).1⟩ := rfl

lemma doEvent_step_trace {n : Nat} (g : GState n) (i : Fin n) (ok : Bool) :
    (doEvent g (.step i ok)).trace
      = g.trace ++ (inputHandlerStep g.store g.connected g.ttl (g.agents i).id (g.agents i).pc ok).2.2 := rfl

lemma exec_nil {n : Nat} (g : GState n) : exec g [] = g := rfl

lemma exec_cons {n : Nat} (g : GState n) (e : Event n) (es : List (Event n)) :
    exec g (e :: es) = exec (doEvent g e) es := rfl

/-! ### Claim C5: release semantics -/

/-- C5: release by the identity that currently holds the lease deletes the
key immediately; release invoked when another identity holds the lease, or
when the key is unoccupied, leaves the store unchanged (and is not an
error); and release is idempotent. -/
theorem c5_release_spec (s : Store) (idy : String) :
    (getOp s = some idy → release s idy = delOp s) ∧
    (∀ h, getOp s = some h → h ≠ idy → release s idy = s) ∧
    (getOp s = none → release s idy = s) ∧
    release (release s idy) idy = release s idy := by
  have hdel : getOp (delOp s) = none := by simp [getOp, Store.effective, delOp]
  rcases hgo : getOp s with _ | h
  · refine ⟨?_, ?_, ?_, ?_⟩
    · intro hcontra
      cases hcontra
    · intro h hh
      cases hh
    · intro _
      simp [release, hgo]
    · simp [release, hgo]
  · by_cases hh : h = idy
    · subst hh
      refine ⟨?_, ?_, ?_, ?_⟩
      · intro _
        simp [release, hgo]
      · intro h2 hh2 hne
        cases hh2
        exact absurd rfl hne
      · intro hcontra
        cases hcontra
      · simp [release, hgo, hdel]
    · refine ⟨?_, ?_, ?_, ?_⟩
      · intro hcontra
        cases hcontra
        exact absurd rfl hh
      · intro h2 hh2 hne
        cases hh2
        simp [release, hgo, hh]
      · intro hcontra
        cases hcontra
      · simp [release, hgo, hh]

/-- Witness for C5 at concrete stores: the holder's release deletes the
key, a non-holder's release and a release on an empty key change nothing. -/
theorem c5_release_spec_witness :
    release { now := 0, entry := some ⟨"alpha", 5⟩ } "alpha"
        = delOp { now := 0, entry := some ⟨"alpha", 5⟩ } ∧
    release { now := 0, entry := some ⟨"beta", 5⟩ } "alpha"
        = { now := 0, entry := some ⟨"beta", 5⟩ } ∧
    release { now := 0, entry := none } "alpha" = { now := 0, entry := none } :=
  ⟨(c5_release_spec { now := 0, entry := some ⟨"alpha", 5⟩ } "alpha").1 (by decide),
   (c5_release_spec { now := 0, entry := some ⟨"beta", 5⟩ } "alpha").2.1 "beta"
     (by decide) (by decide),
   (c5_release_spec { now := 0, entry := none } "alpha").2.2.1 (by decide)⟩

/-! ### Claim C7: the status monitor never acquires -/

/-- C7: a monitor tick never issues a conditional set or a delete; its only
mutating command is the TTL refresh, issued exactly when the read holder is
this process's own identity; when the holder is another identity, when no
holder exists, when the connection is down, or when the GET fails, the tick
leaves the lease untouched. -/
theorem c7_monitor_never_acquires (connected : Bool) (s : Store) (self : String)
    (ttl : Int) (okGet okExpire : Bool) :
    ∀ s2 st tr, monitorTick connected s self ttl okGet okExpire = (s2, st, tr) →
      (∀ o ∈ tr, (∀ v t, o ≠ .opSet v t) ∧ o ≠ .opDel) ∧
      (∀ t, Op.opExpire t ∈ tr → getOp s = some self ∧ t = ttl) ∧
      (connected = false → s2 = s ∧ tr = []) ∧
      (okGet = false → s2 = s) ∧
      (∀ h, getOp s = some h → h ≠ self → s2 = s) ∧
      (getOp s = none → s2 = s) ∧
      (s2 = s ∨ (getOp s = some self ∧ s2 = (expireOp s ttl).2)) := by
  intro s2 st tr h
  by_cases hc : connected
  · by_cases hg : okGet
    · rcases hgo : getOp s with _ | hld
      · simp only [monitorTick, hc, hg, hgo, if_true] at h
        obtain ⟨rfl, rfl, rfl⟩ := h
        refine ⟨?_, ?_, ?_, ?_, ?_, ?_, ?_⟩
        · simp
        · simp
        · intro hcf
          exact absurd hc (by simp [hcf])
        · intro _
          rfl
        · intro h2 hh2 hne
          cases hh2
        · intro _
          rfl
        · exact Or.inl rfl
      · by_cases hh : hld = self
        · subst hh
          by_cases he : okExpire
          · simp only [monitorTick, hc, hg, hgo, he, if_true, if_pos rfl] at h
            obtain ⟨rfl, rfl, rfl⟩ := h
            refine ⟨?_, ?_, ?_, ?_, ?_, ?_, ?_⟩
            · simp
            · intro t ht
              simp at ht
              exact ⟨rfl, ht⟩
            · intro hcf
              exact absurd hc (by simp [hcf])
            · intro hgf
              exact absurd hg (by simp [hgf])
            · intro h2 hh2 hne
              cases hh2
              exact absurd rfl hne
            · intro hno
              cases hno
            · exact Or.inr ⟨rfl, rfl⟩
          · simp only [monitorTick, hc, hg, hgo, he, if_true, if_pos rfl, if_false] at h
            obtain ⟨rfl, rfl, rfl⟩ := h
            refine ⟨?_, ?_, ?_, ?_, ?_, ?_, ?_⟩
            · simp
            · simp
            · intro hcf
              exact absurd hc (by simp [hcf])
            · intro _
              rfl
            · intro h2 hh2 hne
              rfl
            · intro hno
              cases hno
            · exact Or.inl rfl
        · simp only [monitorTick, hc, hg, hgo, if_true, if_neg hh] at h
          obtain ⟨rfl, rfl, rfl⟩ := h
          refine ⟨?_, ?_, ?_, ?_, ?_, ?_, ?_⟩
          · simp
          · simp
          · intro hcf
            exact absurd hc (by simp [hcf])
          · intro _
            rfl
          · intro h2 hh2 hne
            rfl
          · intro hno
            cases hno
          · exact Or.inl rfl
    · simp only [monitorTick, hc, hg, if_true, if_false] at h
      obtain ⟨rfl, rfl, rfl⟩ := h
      refine ⟨?_, ?_, ?_, ?_, ?_, ?_, ?_⟩
      · simp
      · simp
      · intro hcf
        exact absurd hc (by simp [hcf])
      · intro _
        rfl
      · intro h2 hh2 hne
        rfl
      · intro _
        rfl
      · exact Or.inl rfl
  · simp only [monitorTick, hc, if_false] at h
    obtain ⟨rfl, rfl, rfl⟩ := h
    refine ⟨?_, ?_, ?_, ?_, ?_, ?_, ?_⟩
    · simp
    · simp
    · intro _
      exact ⟨rfl, rfl⟩
    · intro _
      rfl
    · intro h2 hh2 hne
      rfl
    · intro _
      rfl
    · exact Or.inl rfl

/-- Witness for C7: a tick that reads another replica's identity mutates
nothing, and a tick reading this replica's identity only refreshes. -/
theorem c7_monitor_never_acquires_witness :
    ({ now := 0, entry := some ⟨"beta", 5⟩ } : Store)
        = { now := 0, entry := some ⟨"beta", 5⟩ } ∧
    (monitorTick true { now := 0, entry := some ⟨"beta", 5⟩ } "alpha" 10 true true).1
        = { now := 0, entry := some ⟨"beta", 5⟩ } ∧
    (Op.opExpire 10 ∈ (monitorTick true { now := 0, entry := some ⟨"alpha", 5⟩ } "alpha" 10 true true).2.2 →
      getOp { now := 0, entry := some ⟨"alpha", 5⟩ } = some "alpha") := by
  refine ⟨rfl, ?_, ?_⟩
  · exact (c7_monitor_never_acquires true { now := 0, entry := some ⟨"beta", 5⟩ } "alpha" 10 true true
      _ _ _ rfl).2.2.2.2.1 "beta" (by decide) (by decide)
  · intro hmem
    exact ((c7_monitor_never_acquires true { now := 0, entry := some ⟨"alpha", 5⟩ } "alpha" 10 true true
      _ _ _ rfl).2.1 10 hmem).1

/-! ### Claim C9: shutdown sequence -/

/-- C9: the close handler stops the heartbeat monitor first, then
best-effort releases the lease when this process holds it, then quits the
client, and the completion callback is invoked in every case, failures of
the release or of the quit included. -/
theorem c9_shutdown (connected : Bool) (s : Store) (self : String)
    (okGet okDel okQuit : Bool) :
    ∀ r, onClose connected s self okGet okDel okQuit = r →
      r.doneCalled = true ∧
      r.trace.head? = some Op.opStop ∧
      (Op.opQuit ∈ r.trace → r.trace.getLast? = some Op.opQuit) ∧
      (Op.opDel ∈ r.trace → connected = true ∧ getOp s = some self) ∧
      (connected = true → okGet = true → getOp s = some self → okDel = true →
        r.store = delOp s) := by
  intro r h
  by_cases hc : connected
  · by_cases hg : okGet
    · rcases hgo : getOp s with _ | hld
      · by_cases hq : okQuit
        all_goals
          simp only [onClose, hc, hg, hgo, hq, if_true, if_false] at h
          subst h
          refine ⟨rfl, rfl, ?_, ?_, ?_⟩
        · simp
        · simp
        · intro _ _ hcontra
          cases hcontra
        · simp
        · simp
        · intro _ _ hcontra
          cases hcontra
      · by_cases hh : hld = self
        · subst hh
          by_cases hd : okDel
          · by_cases hq : okQuit
            all_goals
              simp only [onClose, hc, hg, hgo, hd, hq, if_true, if_false, if_pos rfl] at h
              subst h
              exact ⟨rfl, rfl, by simp, fun _ => ⟨hc, rfl⟩, fun _ _ _ _ => rfl⟩
          · simp only [onClose, hc, hg, hgo, hd, if_true, if_false, if_pos rfl] at h
            subst h
            refine ⟨rfl, rfl, ?_, ?_, ?_⟩
            · simp
            · simp
            · intro _ _ _ hcontra
              exact absurd hcontra (by simp [hd])
        · by_cases hq : okQuit
          all_goals
            simp only [onClose, hc, hg, hgo, hq, if_true, if_false, if_neg hh] at h
            subst h
            refine ⟨rfl, rfl, ?_, ?_, ?_⟩
          · simp
          · simp
          · intro _ _ hcontra
            cases hcontra
            exact absurd rfl hh
          · simp
          · simp
          · intro _ _ hcontra
            cases hcontra
            exact absurd rfl hh
    · simp only [onClose, hc, hg, if_true, if_false] at h
      subst h
      refine ⟨rfl, rfl, ?_, ?_, ?_⟩
      · simp
      · simp
      · intro _ hcontra
        exact absurd hcontra (by simp [hg])
  · simp only [onClose, hc, if_false] at h
    subst h
    refine ⟨rfl, rfl, ?_, ?_, ?_⟩
    · simp
    · simp
    · intro hcontra
      exact absurd hcontra (by simp [hc])

/-- Witness for C9: with the lease held by this process and all commands
succeeding, the close handler deletes the key, quits last, and invokes the
completion callback. -/
theorem c9_shutdown_witness :
    (onClose true { now := 0, entry := some ⟨"alpha", 5⟩ } "alpha" true true true).doneCalled = true ∧
    (onClose true { now := 0, entry := some ⟨"alpha", 5⟩ } "alpha" true true true).store
      = delOp { now := 0, entry := some ⟨"alpha", 5⟩ } := by
  have h := c9_shutdown true { now := 0, entry := some ⟨"alpha", 5⟩ } "alpha" true true true _ rfl
  exact ⟨h.1, h.2.2.2.2 rfl rfl (by decide) rfl⟩

/-! ### Claim C6: TTL configuration is not validated -/

/-- C6 counterexample: a configured TTL of -5 is kept by
`parseInt(config.lockTTL) || 10` and is carried into the SET NX EX
acquisition command of the very first trigger, and a configured TTL of 0 is
silently replaced by the default 10 — no fatal startup rejection exists. -/
theorem c6_counterexample :
    lockTTL (some (-5)) = -5 ∧
    lockTTL (some 0) = 10 ∧
    (exec (initState 1 { now := 0, entry := none } true (lockTTL (some (-5))) (fun _ => "alpha"))
        [.step 0 true, .step 0 true, .step 0 true]).trace
      = [Op.opSet "alpha" (-5)] := by
  decide

/-- C6 (amended): the source performs no TTL validation at startup: a
configured TTL parsing to 0 (or unparsable) is silently replaced by the
default 10, while a negative configured TTL is kept, carried into the SET
acquisition command, rejected there by the store, and the trigger falls
through to the follower path without any lease being written. -/
theorem c6_no_ttl_validation (v : Int) (hv : v < 0) :
    lockTTL (some v) = v ∧
    lockTTL (some 0) = 10 ∧
    lockTTL none = 10 ∧
    (exec (initState 1 { now := 0, entry := none } true v (fun _ => "alpha"))
        [.step 0 true, .step 0 true, .step 0 true]).trace = [Op.opSet "alpha" v] ∧
    (exec (initState 1 { now := 0, entry := none } true v (fun _ => "alpha"))
        [.step 0 true, .step 0 true, .step 0 true]).store.entry = none ∧
    ((exec (initState 1 { now := 0, entry := none } true v (fun _ => "alpha"))
        [.step 0 true, .step 0 true, .step 0 true, .step 0 true, .step 0 true, .step 0 true]).agents 0).pc
      = AgentPC.done (.sentFollower none) := by
  have hne : v ≠ 0 := by omega
  have hle : v ≤ 0 := le_of_lt hv
  refine ⟨by simp [lockTTL, hne], rfl, rfl, ?_, ?_, ?_⟩ <;>
    simp [exec, doEvent, inputHandlerStep, initState, setNxEx, getOp, Store.effective, hle,
      Function.update_same]

/-- Witness for C6 (amended) at the concrete configured TTL -2. -/
theorem c6_no_ttl_validation_witness :
    lockTTL (some (-2)) = -2 ∧
    (exec (initState 1 { now := 0, entry := none } true (-2) (fun _ => "alpha"))
        [.step 0 true, .step 0 true, .step 0 true]).trace = [Op.opSet "alpha" (-2)] :=
  ⟨(c6_no_ttl_validation (-2) (by decide)).1,
   (c6_no_ttl_validation (-2) (by decide)).2.2.2.1⟩

/-! ### Claim C2: command failures are conflated with non-acquisition -/

/-- The run refuting C2: the store holds a lease of "beta"; the trigger's
SET NX command fails with a connectivity error (caught inside
checkLeadership, which returns false), but the two subsequent GETs succeed. -/
def c2run : GState 1 :=
  exec (initState 1 { now := 0, entry := some ⟨"beta", 10⟩ } true 5 (fun _ => "alpha"))
    [.step 0 true, .step 0 true, .step 0 false, .step 0 true, .step 0 true, .step 0 true]

/-- C2 counterexample: an invocation during which a store command (the
conditional set) fails does not produce a distinct Unknown verdict: it still
emits a Following verdict on the follower output, naming "beta" as leader. -/
theorem c2_counterexample :
    Event.step (0 : Fin 1) false
        ∈ ([.step 0 true, .step 0 true, .step 0 false, .step 0 true, .step 0 true, .step 0 true] :
            List (Event 1)) ∧
    (c2run.agents 0).pc = AgentPC.done (.sentFollower (some "beta")) ∧
    agentOutputs (c2run.agents 0) = (none, some ⟨false, some "beta", some "alpha"⟩) := by
  decide

/-! ### Claim C10: a follower output can carry a null leader -/

/-- The run establishing C10: "beta" holds the lease until time 3; the
trigger's SET NX fails against it, then the lease expires (three ticks)
before the refresh GET and the follower-path GET, both of which read nil. -/
def c10run : GState 1 :=
  exec (initState 1 { now := 0, entry := some ⟨"beta", 3⟩ } true 10 (fun _ => "alpha"))
    [.step 0 true, .step 0 true, .step 0 true, .tick, .tick, .tick,
     .step 0 true, .step 0 true, .step 0 true]

/-- C10: there is an execution in which the lease expires between the failed
conditional set and the holder reads, and the trigger is then emitted on the
follower output with isLeader = false and a null leaderHost. -/
theorem c10_follower_output_with_null_leader :
    ((exec (initState 1 { now := 0, entry := some ⟨"beta", 3⟩ } true 10 (fun _ => "alpha"))
        [.step 0 true, .step 0 true, .step 0 true]).agents 0).pc = AgentPC.refreshConn ∧
    (c10run.agents 0).pc = AgentPC.done (.sentFollower none) ∧
    agentOutputs (c10run.agents 0) = (none, some ⟨false, none, some "alpha"⟩) ∧
    c10run.trace = [Op.opSet "alpha" 10, Op.opGet, Op.opGet] := by
  decide

/-! ### Claim C8: triggers while disconnected are dropped -/

/-- Invariant of any execution that starts disconnected: nothing is ever
issued to the store, the lease entry never changes, and every invocation is
either still at its entry guard or was dropped there. -/
def DroppedInv {n : Nat} (e0 : Option Lease) (g : GState n) : Prop :=
  g.connected = false ∧ g.trace = [] ∧ g.store.entry = e0 ∧
  ∀ i, (g.agents i).pc = AgentPC.entry ∨ (g.agents i).pc = AgentPC.done .dropped

lemma droppedInv_doEvent {n : Nat} {e0 : Option Lease} {g : GState n}
    (hg : DroppedInv e0 g) (e : Event n) : DroppedInv e0 (doEvent g e) := by
  obtain ⟨hc, htr, hen, hpc⟩ := hg
  cases e with
  | tick => exact ⟨hc, htr, hen, hpc⟩
  | step i ok =>
    have hstep : inputHandlerStep g.store g.connected g.ttl (g.agents i).id (g.agents i).pc ok
        = (.done .dropped, g.store, []) := by
      rcases hpc i with hp | hp <;> rw [hp, hc] <;> rfl
    refine ⟨hc, ?_, ?_, ?_⟩
    · rw [doEvent_step_trace, hstep, htr]
      rfl
    · rw [doEvent_step_store, hstep]
      exact hen
    · intro j
      rw [doEvent_step_agents, hstep]
      by_cases hj : j = i
      · subst hj
        rw [Function.update_same]
        exact Or.inr rfl
      · rw [Function.update_noteq hj]
        exact hpc j

lemma droppedInv_exec {n : Nat} {e0 : Option Lease} :
    ∀ (es : List (Event n)) (g : GState n), DroppedInv e0 g → DroppedInv e0 (exec g es) := by
  intro es
  induction es with
  | nil => exact fun g hg => hg
  | cons e tl ih =>
    intro g hg
    rw [exec_cons]
    exact ih _ (droppedInv_doEvent hg e)

/-- C8: any trigger arriving while the connection is down is dropped at the
entry guard: no command is issued, the lease entry is untouched, and no
message is emitted on either output, under every schedule. -/
theorem c8_disconnected_triggers_dropped {n : Nat} (s : Store) (ttl : Int)
    (ids : Fin n → String) (es : List (Event n)) :
    (exec (initState n s false ttl ids) es).trace = [] ∧
    (exec (initState n s false ttl ids) es).store.entry = s.entry ∧
    ∀ i, agentOutputs ((exec (initState n s false ttl ids) es).agents i) = (none, none) ∧
      (((exec (initState n s false ttl ids) es).agents i).pc = AgentPC.entry ∨
        ((exec (initState n s false ttl ids) es).agents i).pc = AgentPC.done .dropped) := by
  have hinv : DroppedInv s.entry (initState n s false ttl ids) :=
    ⟨rfl, rfl, rfl, fun i => Or.inl rfl⟩
  obtain ⟨hc, htr, hen, hpc⟩ := droppedInv_exec es _ hinv
  refine ⟨htr, hen, fun i => ⟨?_, hpc i⟩⟩
  rcases hpc i with hp | hp <;> simp [agentOutputs, hp, outputsOf]

/-! ### Claim C2 (amended): error handling of one invocation, step by step -/

/-- C2 (amended): the source has no distinct Unknown verdict.  (1) A trigger
arriving while the connection flag is down is dropped at the entry guard,
issuing nothing.  (2)-(4) A thrown conditional set, refresh GET or refresh
EXPIRE is caught inside checkLeadership / refreshLeadership and treated as
acquisition failure: the invocation continues towards the refresh and
follower paths and may still end Leading or Following (the counterexample
shows a Following verdict after a failed set).  (5) A thrown follower-path
GET ends the invocation in the outer catch: errored result, store untouched,
nothing issued by that step.  (6) The outer catch is reached only that way:
any step that ends errored was a follower-path GET that threw (or the
invocation was already errored).  (7)-(8) Errored and dropped invocations
emit nothing on either output. -/
theorem c2_error_conflation (st : Store) (ttl : Int) (self : String) (ok : Bool) :
    inputHandlerStep st false ttl self AgentPC.entry ok = (AgentPC.done .dropped, st, []) ∧
    inputHandlerStep st true ttl self AgentPC.checkSet false = (AgentPC.refreshConn, st, []) ∧
    inputHandlerStep st true ttl self AgentPC.refreshGet false = (AgentPC.followGet, st, []) ∧
    inputHandlerStep st true ttl self AgentPC.refreshExpire false = (AgentPC.followGet, st, []) ∧
    inputHandlerStep st true ttl self AgentPC.followGet false
      = (AgentPC.done .errored, st, []) ∧
    (∀ (c : Bool) (pc pc2 : AgentPC) (st2 : Store) (ops : List Op),
      inputHandlerStep st c ttl self pc ok = (pc2, st2, ops) →
      pc2 = AgentPC.done .errored →
      pc = AgentPC.done .errored ∨ (pc = AgentPC.followGet ∧ ok = false)) ∧
    outputsOf .errored self = (none, none) ∧
    outputsOf .dropped self = (none, none) := by
  refine ⟨rfl, rfl, rfl, rfl, rfl, ?_, rfl, rfl⟩
  intro c pc pc2 st2 ops h herr
  subst herr
  cases pc
  case entry =>
    cases c <;> simp [inputHandlerStep] at h
  case checkConn =>
    cases c <;> simp [inputHandlerStep] at h
  case checkSet =>
    cases ok
    · simp [inputHandlerStep] at h
    · rcases hset : setNxEx st self ttl with _ | ⟨b, st3⟩
      · simp [inputHandlerStep, hset] at h
      · cases b <;> simp [inputHandlerStep, hset] at h
  case refreshConn =>
    cases c <;> simp [inputHandlerStep] at h
  case refreshGet =>
    cases ok
    · simp [inputHandlerStep] at h
    · rcases hget : getOp st with _ | h2
      · simp [inputHandlerStep, hget] at h
      · by_cases hh : h2 = self <;> simp [inputHandlerStep, hget, hh] at h
  case refreshExpire =>
    cases ok <;> simp [inputHandlerStep] at h
  case followGet =>
    cases ok
    · exact Or.inr ⟨rfl, rfl⟩
    · simp [inputHandlerStep] at h
  case done r =>
    simp [inputHandlerStep] at h
    exact Or.inl (by rw [h.1])

/-- Witness for C2 (amended): at a concrete held store, a thrown
follower-path GET ends the invocation errored with nothing issued, and the
only-from direction is discharged at that concrete step. -/
theorem c2_error_conflation_witness :
    inputHandlerStep { now := 0, entry := some ⟨"beta", 10⟩ } true 5 "alpha"
        AgentPC.followGet false
      = (AgentPC.done .errored, { now := 0, entry := some ⟨"beta", 10⟩ }, []) ∧
    (AgentPC.followGet = AgentPC.done .errored ∨
      (AgentPC.followGet = AgentPC.followGet ∧ false = false)) :=
  ⟨(c2_error_conflation { now := 0, entry := some ⟨"beta", 10⟩ } 5 "alpha" false).2.2.2.2.1,
   (c2_error_conflation { now := 0, entry := some ⟨"beta", 10⟩ } 5 "alpha" false).2.2.2.2.2.1
     true AgentPC.followGet (AgentPC.done .errored) { now := 0, entry := some ⟨"beta", 10⟩ } []
     (by decide) rfl⟩

/-! ### Claims C3 and C4: one complete trigger with a reachable store -/

/-- The schedule of one complete trigger invocation with every command
reaching the store; six atomic steps cover the longest path, and finished
invocations ignore further steps. -/
def fullCall : List (Event 1) :=
  [.step 0 true, .step 0 true, .step 0 true, .step 0 true, .step 0 true, .step 0 true]

/-- One complete, uninterfered trigger invocation by `self` against `s`. -/
def runTrigger (s : Store) (ttl : Int) (self : String) : GState 1 :=
  exec (initState 1 s true ttl (fun _ => self)) fullCall

/-- C3: a process already holding an unexpired lease that triggers again
gets Leading through the refresh path — the conditional set is issued and
fails, the holder is read back as itself, the TTL refresh is issued — and
the lease expiry is extended (to now + ttl, which is no earlier than the old
expiry for any lease this ttl created), leaving the post state again a held,
unexpired lease, so every repeated call behaves the same. -/
theorem c3_renewal_before_expiry (t e : Nat) (self : String) (ttl : Int)
    (httl : 0 < ttl) (hlive : t < e) (hfresh : e ≤ t + ttl.toNat) :
    ((runTrigger { now := t, entry := some ⟨self, e⟩ } ttl self).agents 0).pc
        = AgentPC.done .sentLeader ∧
    (runTrigger { now := t, entry := some ⟨self, e⟩ } ttl self).store
        = { now := t, entry := some ⟨self, t + ttl.toNat⟩ } ∧
    (runTrigger { now := t, entry := some ⟨self, e⟩ } ttl self).trace
        = [Op.opSet self ttl, Op.opGet, Op.opExpire ttl] ∧
    e ≤ t + ttl.toNat ∧ t < t + ttl.toNat := by
  have hle : ¬ (ttl ≤ 0) := not_le.mpr httl
  refine ⟨?_, ?_, ?_, hfresh, by omega⟩ <;>
    simp [runTrigger, fullCall, exec, doEvent, inputHandlerStep, initState, setNxEx, expireOp,
      getOp, Store.effective, hlive, hle, Function.update_same]

/-- Witness for C3: holder "alpha", lease until 5, ttl 10, at time 0: the
verdict is Leading and the expiry is extended to 10. -/
theorem c3_renewal_before_expiry_witness :
    ((runTrigger { now := 0, entry := some ⟨"alpha", 5⟩ } 10 "alpha").agents 0).pc
        = AgentPC.done .sentLeader ∧
    (runTrigger { now := 0, entry := some ⟨"alpha", 5⟩ } 10 "alpha").store
        = { now := 0, entry := some ⟨"alpha", 10⟩ } :=
  ⟨(c3_renewal_before_expiry 0 5 "alpha" 10 (by decide) (by decide) (by decide)).1,
   (c3_renewal_before_expiry 0 5 "alpha" 10 (by decide) (by decide) (by decide)).2.1⟩

/-- C4: a trigger processed while connected with no command failure and no
interference emits on exactly one output: if the key is free or already
held by this process, on the leader output tagged
`{isLeader: true, leaderHost: self}`; if another identity holds it, on the
follower output tagged `{isLeader: false, leaderHost: holder,
followerHost: self}`. -/
theorem c4_trigger_routing (s : Store) (self : String) (ttl : Int) (httl : 0 < ttl) :
    ((getOp s = none ∨ getOp s = some self) →
      ((runTrigger s ttl self).agents 0).pc = AgentPC.done .sentLeader ∧
      agentOutputs ((runTrigger s ttl self).agents 0)
        = (some ⟨true, some self, none⟩, none)) ∧
    (∀ h, getOp s = some h → h ≠ self →
      ((runTrigger s ttl self).agents 0).pc = AgentPC.done (.sentFollower (some h)) ∧
      agentOutputs ((runTrigger s ttl self).agents 0)
        = (none, some ⟨false, some h, some self⟩)) := by
  have hle : ¬ (ttl ≤ 0) := not_le.mpr httl
  constructor
  · intro hcase
    rcases hcase with hgo | hgo <;> simp only [getOp] at hgo <;>
      simp [runTrigger, fullCall, exec, doEvent, inputHandlerStep, initState, setNxEx,
        getOp, hgo, hle, Function.update_same, agentOutputs, outputsOf]
  · intro h hgo hne
    simp only [getOp] at hgo
    simp [runTrigger, fullCall, exec, doEvent, inputHandlerStep, initState, setNxEx,
      getOp, hgo, hne, hle, Function.update_same, agentOutputs, outputsOf]

/-- Witness for C4: an empty key yields the leader output only; a key held
by "beta" yields the follower output only, naming "beta" as leader. -/
theorem c4_trigger_routing_witness :
    agentOutputs ((runTrigger { now := 0, entry := none } 10 "alpha").agents 0)
        = (some ⟨true, some "alpha", none⟩, none) ∧
    agentOutputs ((runTrigger { now := 0, entry := some ⟨"beta", 5⟩ } 10 "alpha").agents 0)
        = (none, some ⟨false, some "beta", some "alpha"⟩) :=
  ⟨((c4_trigger_routing { now := 0, entry := none } "alpha" 10 (by decide)).1
      (Or.inl (by decide))).2,
   ((c4_trigger_routing { now := 0, entry := some ⟨"beta", 5⟩ } "alpha" 10 (by decide)).2
      "beta" (by decide) (by decide)).2⟩

/-! ### Claim C1: mutual exclusion of concurrent first acquisitions -/

/-- Program counters an invocation can be at before any acquisition has
happened. -/
def PrePC (pc : AgentPC) : Prop :=
  pc = AgentPC.entry ∨ pc = AgentPC.checkConn ∨ pc = AgentPC.checkSet

/-- Program counters a losing invocation can be at once the winner `w`
holds the key: it can still be anywhere before its own conditional set, or
on the refresh/follower path, or finished as a follower naming `w`. -/
def LoserPC (w : String) (pc : AgentPC) : Prop :=
  PrePC pc ∨ pc = AgentPC.refreshConn ∨ pc = AgentPC.refreshGet ∨
  pc = AgentPC.followGet ∨ pc = AgentPC.done (.sentFollower (some w))

/-- Inductive invariant for N connected replicas racing on an initially
empty key with no time passage: either nobody has acquired yet and the key
is still empty, or some replica `iw` won the conditional set, is finished
as Leading, and every other replica is on a losing path towards Following
`iw`. -/
def InvC1 {n : Nat} (t0 : Nat) (ttl : Int) (ids : Fin n → String) (g : GState n) : Prop :=
  g.connected = true ∧ g.ttl = ttl ∧ g.store.now = t0 ∧
  (∀ i, (g.agents i).id = ids i) ∧
  ((g.store.entry = none ∧ ∀ i, PrePC (g.agents i).pc) ∨
   (∃ iw, g.store.entry = some ⟨ids iw, t0 + ttl.toNat⟩ ∧
      (g.agents iw).pc = AgentPC.done .sentLeader ∧
      ∀ j, j ≠ iw → LoserPC (ids iw) (g.agents j).pc))

lemma invC1_ids_update {n : Nat} {ids : Fin n → String} {g : GState n}
    (hid : ∀ j, (g.agents j).id = ids j) (i : Fin n) (pc2 : AgentPC) :
    ∀ j, ((Function.update g.agents i ⟨(g.agents i).id, pc2⟩) j).id = ids j := by
  intro j
  by_cases hj : j = i
  · subst hj
    rw [Function.update_same]
    exact hid j
  · rw [Function.update_noteq hj]
    exact hid j

/-- Rebuilding the invariant after a step of a replica that has not
acquired, in the phase where the key is still empty and the step leaves the
store unchanged. -/
lemma invC1_rebuild_pre {n : Nat} {t0 : Nat} {ttl : Int} {ids : Fin n → String}
    {g : GState n} (hc : g.connected = true) (ht : g.ttl = ttl)
    (hnow : g.store.now = t0) (hid : ∀ j, (g.agents j).id = ids j)
    (hent : g.store.entry = none) (hpre : ∀ j, PrePC (g.agents j).pc)
    (i : Fin n) (pc2 : AgentPC) (ops : List Op)
    (hstep : inputHandlerStep g.store g.connected g.ttl (g.agents i).id (g.agents i).pc true
        = (pc2, g.store, ops))
    (hpc2 : PrePC pc2) :
    InvC1 t0 ttl ids (doEvent g (.step i true)) := by
  refine ⟨hc, ht, ?_, ?_, Or.inl ⟨?_, ?_⟩⟩
  · rw [doEvent_step_store, hstep]
    exact hnow
  · rw [doEvent_step_agents, hstep]
    exact invC1_ids_update hid i pc2
  · rw [doEvent_step_store, hstep]
    exact hent
  · intro j
    rw [doEvent_step_agents, hstep]
    by_cases hj : j = i
    · subst hj
      rw [Function.update_same]
      exact hpc2
    · rw [Function.update_noteq hj]
      exact hpre j

/-- Rebuilding the invariant after a step of a losing replica in the phase
where `iw` has already won; such a step leaves the store unchanged. -/
lemma invC1_rebuild_loser {n : Nat} {t0 : Nat} {ttl : Int} {ids : Fin n → String}
    {g : GState n} (hc : g.connected = true) (ht : g.ttl = ttl)
    (hnow : g.store.now = t0) (hid : ∀ j, (g.agents j).id = ids j)
    {iw : Fin n} (hent : g.store.entry = some ⟨ids iw, t0 + ttl.toNat⟩)
    (hw : (g.agents iw).pc = AgentPC.done .sentLeader)
    (hlose : ∀ j, j ≠ iw → LoserPC (ids iw) (g.agents j).pc)
    (i : Fin n) (hii : ¬ i = iw) (pc2 : AgentPC) (ops : List Op)
    (hstep : inputHandlerStep g.store g.connected g.ttl (g.agents i).id (g.agents i).pc true
        = (pc2, g.store, ops))
    (hpc2 : LoserPC (ids iw) pc2) :
    InvC1 t0 ttl ids (doEvent g (.step i true)) := by
  refine ⟨hc, ht, ?_, ?_, Or.inr ⟨iw, ?_, ?_, ?_⟩⟩
  · rw [doEvent_step_store, hstep]
    exact hnow
  · rw [doEvent_step_agents, hstep]
    exact invC1_ids_update hid i pc2
  · rw [doEvent_step_store, hstep]
    exact hent
  · rw [doEvent_step_agents, hstep, Function.update_noteq (Ne.symm hii)]
    exact hw
  · intro j hj
    rw [doEvent_step_agents, hstep]
    by_cases hji : j = i
    · subst hji
      rw [Function.update_same]
      exact hpc2
    · rw [Function.update_noteq hji]
      exact hlose j hj

/-- One all-commands-succeed step of any replica preserves the C1
invariant. -/
lemma invC1_doEvent {n : Nat} {t0 : Nat} {ttl : Int} {ids : Fin n → String}
    (hinj : Function.Injective ids) (httl : 0 < ttl)
    {g : GState n} (hg : InvC1 t0 ttl ids g) (i : Fin n) :
    InvC1 t0 ttl ids (doEvent g (.step i true)) := by
  obtain ⟨hc, ht, hnow, hid, hcase⟩ := hg
  have httn : 0 < ttl.toNat := by omega
  rcases hcase with ⟨hent, hpre⟩ | ⟨iw, hent, hw, hlose⟩
  · have heff : g.store.effective = none := by simp [Store.effective, hent]
    rcases hpre i with hp | hp | hp
    · exact invC1_rebuild_pre hc ht hnow hid hent hpre i AgentPC.checkConn []
        (by rw [hp, hc]; rfl) (by simp [PrePC])
    · exact invC1_rebuild_pre hc ht hnow hid hent hpre i AgentPC.checkSet []
        (by rw [hp, hc]; rfl) (by simp [PrePC])
    · -- the conditional set against the empty key: this replica wins
      have hstep : inputHandlerStep g.store g.connected g.ttl (g.agents i).id (g.agents i).pc true
          = (AgentPC.done .sentLeader,
             { g.store with entry := some ⟨(g.agents i).id, g.store.now + ttl.toNat⟩ },
             [Op.opSet (g.agents i).id ttl]) := by
        rw [hp, hc, ht]
        simp [inputHandlerStep, setNxEx, heff, not_le.mpr httl]
      refine ⟨hc, ht, ?_, ?_, Or.inr ⟨i, ?_, ?_, ?_⟩⟩
      · rw [doEvent_step_store, hstep]
        exact hnow
      · rw [doEvent_step_agents, hstep]
        exact invC1_ids_update hid i _
      · rw [doEvent_step_store, hstep]
        rw [hid i, hnow]
      · rw [doEvent_step_agents, hstep, Function.update_same]
      · intro j hj
        rw [doEvent_step_agents, hstep, Function.update_noteq hj]
        exact Or.inl (hpre j)
  · have hlt : g.store.now < t0 + ttl.toNat := by
      rw [hnow]
      omega
    have heff : g.store.effective = some (ids iw) := by
      simp [Store.effective, hent, hlt]
    by_cases hii : i = iw
    · subst hii
      have hstep : inputHandlerStep g.store g.connected g.ttl (g.agents i).id (g.agents i).pc true
          = (AgentPC.done .sentLeader, g.store, []) := by
        rw [hw]
        rfl
      refine ⟨hc, ht, ?_, ?_, Or.inr ⟨i, ?_, ?_, ?_⟩⟩
      · rw [doEvent_step_store, hstep]
        exact hnow
      · rw [doEvent_step_agents, hstep]
        exact invC1_ids_update hid i _
      · rw [doEvent_step_store, hstep]
        exact hent
      · rw [doEvent_step_agents, hstep, Function.update_same]
      · intro j hj
        rw [doEvent_step_agents, hstep, Function.update_noteq hj]
        exact hlose j hj
    · have hneq : ids iw ≠ (g.agents i).id := by
        rw [hid i]
        exact fun hcontra => hii (hinj hcontra).symm
      rcases hlose i hii with (hp | hp | hp) | hp | hp | hp | hp
      · exact invC1_rebuild_loser hc ht hnow hid hent hw hlose i hii AgentPC.checkConn []
          (by rw [hp, hc]; rfl) (by simp [LoserPC, PrePC])
      · exact invC1_rebuild_loser hc ht hnow hid hent hw hlose i hii AgentPC.checkSet []
          (by rw [hp, hc]; rfl) (by simp [LoserPC, PrePC])
      · exact invC1_rebuild_loser hc ht hnow hid hent hw hlose i hii AgentPC.refreshConn
          [Op.opSet (g.agents i).id ttl]
          (by rw [hp, hc, ht]; simp [inputHandlerStep, setNxEx, heff, not_le.mpr httl])
          (by simp [LoserPC, PrePC])
      · exact invC1_rebuild_loser hc ht hnow hid hent hw hlose i hii AgentPC.refreshGet []
          (by rw [hp, hc]; rfl) (by simp [LoserPC, PrePC])
      · exact invC1_rebuild_loser hc ht hnow hid hent hw hlose i hii AgentPC.followGet [Op.opGet]
          (by rw [hp, hc]; simp [inputHandlerStep, getOp, heff, hneq])
          (by simp [LoserPC, PrePC])
      · exact invC1_rebuild_loser hc ht hnow hid hent hw hlose i hii
          (AgentPC.done (.sentFollower (some (ids iw)))) [Op.opGet]
          (by rw [hp, hc]; simp [inputHandlerStep, getOp, heff])
          (by simp [LoserPC, PrePC])
      · exact invC1_rebuild_loser hc ht hnow hid hent hw hlose i hii
          (AgentPC.done (.sentFollower (some (ids iw)))) []
          (by rw [hp, hc]; rfl) (by simp [LoserPC, PrePC])

lemma invC1_exec {n : Nat} {t0 : Nat} {ttl : Int} {ids : Fin n → String}
    (hinj : Function.Injective ids) (httl : 0 < ttl) :
    ∀ (es : List (Event n)) (g : GState n), InvC1 t0 ttl ids g →
      (∀ e ∈ es, ∃ i, e = Event.step i true) → InvC1 t0 ttl ids (exec g es) := by
  intro es
  induction es with
  | nil => exact fun g hg _ => hg
  | cons e tl ih =>
    intro g hg hes
    obtain ⟨i, rfl⟩ := hes e (by simp)
    rw [exec_cons]
    exact ih _ (invC1_doEvent hinj httl hg i) (fun e2 he2 => hes e2 (by simp [he2]))

/-- C1: for any number of connected replicas with pairwise distinct
identities racing on an initially empty key — any interleaving of their
atomic store commands, all commands succeeding, no lease expiry during the
race — once every invocation has finished, exactly one is Leading and every
other one is Following naming the winner's identity. -/
theorem c1_mutual_exclusion {n : Nat} (t0 : Nat) (ttl : Int) (ids : Fin n → String)
    (hn : 0 < n) (hinj : Function.Injective ids) (httl : 0 < ttl)
    (es : List (Event n)) (hes : ∀ e ∈ es, ∃ i, e = Event.step i true)
    (hdone : ∀ i, ∃ r,
      ((exec (initState n { now := t0, entry := none } true ttl ids) es).agents i).pc
        = AgentPC.done r) :
    ∃ iw,
      ((exec (initState n { now := t0, entry := none } true ttl ids) es).agents iw).pc
          = AgentPC.done .sentLeader ∧
      (∀ j, j ≠ iw →
        ((exec (initState n { now := t0, entry := none } true ttl ids) es).agents j).pc
            = AgentPC.done (.sentFollower (some (ids iw)))) ∧
      (∀ k, ((exec (initState n { now := t0, entry := none } true ttl ids) es).agents k).pc
            = AgentPC.done .sentLeader → k = iw) := by
  have hinv0 : InvC1 t0 ttl ids (initState n { now := t0, entry := none } true ttl ids) :=
    ⟨rfl, rfl, rfl, fun i => rfl, Or.inl ⟨rfl, fun i => Or.inl rfl⟩⟩
  obtain ⟨hc, ht, hnow, hid, hcase⟩ := invC1_exec hinj httl es _ hinv0 hes
  rcases hcase with ⟨hent, hpre⟩ | ⟨iw, hent, hw, hlose⟩
  · exfalso
    obtain ⟨r, hr⟩ := hdone ⟨0, hn⟩
    rcases hpre ⟨0, hn⟩ with hp | hp | hp <;> rw [hp] at hr <;> cases hr
  · refine ⟨iw, hw, ?_, ?_⟩
    · intro j hj
      obtain ⟨r, hr⟩ := hdone j
      rcases hlose j hj with (hp | hp | hp) | hp | hp | hp | hp <;>
        (try (rw [hp] at hr; cases hr); all_goals exact hp)
    · intro k hk
      by_contra hkne
      rcases hlose k hkne with (hp | hp | hp) | hp | hp | hp | hp <;>
        rw [hp] at hk <;> cases hk

/-- Identities for the C1 witness: two distinct replicas. -/
def c1ids : Fin 2 → String := fun i => if i.val = 0 then "alpha" else "beta"

/-- Schedule for the C1 witness: replica 0 runs its three steps to victory,
then replica 1 runs its six steps to the follower verdict. -/
def c1sched : List (Event 2) :=
  [.step 0 true, .step 0 true, .step 0 true,
   .step 1 true, .step 1 true, .step 1 true, .step 1 true, .step 1 true, .step 1 true]

/-- Witness for C1 with two replicas "alpha" and "beta" racing on an empty
key: exactly one finishes Leading, the other Following the winner. -/
theorem c1_mutual_exclusion_witness :
    ∃ iw,
      ((exec (initState 2 { now := 0, entry := none } true 10 c1ids) c1sched).agents iw).pc
          = AgentPC.done .sentLeader ∧
      (∀ j, j ≠ iw →
        ((exec (initState 2 { now := 0, entry := none } true 10 c1ids) c1sched).agents j).pc
            = AgentPC.done (.sentFollower (some (c1ids iw)))) ∧
      (∀ k, ((exec (initState 2 { now := 0, entry := none } true 10 c1ids) c1sched).agents k).pc
            = AgentPC.done .sentLeader → k = iw) := by
  have hinj : Function.Injective c1ids := by
    have h : ∀ a b : Fin 2, c1ids a = c1ids b → a = b := by decide
    exact fun a b hab => h a b hab
  have hes : ∀ e ∈ c1sched, ∃ i, e = Event.step i true := by
    intro e he
    fin_cases he <;> exact ⟨_, rfl⟩
  have hdone : ∀ i : Fin 2, ∃ r,
      ((exec (initState 2 { now := 0, entry := none } true 10 c1ids) c1sched).agents i).pc
        = AgentPC.done r := by
    intro i
    fin_cases i
    · exact ⟨.sentLeader, by decide⟩
    · exact ⟨.sentFollower (some "alpha"), by decide⟩
  exact c1_mutual_exclusion 0 10 c1ids (by decide) hinj (by decide) c1sched hes hdone

end ClusterLeader
